import Mathlib

/-!
# Verification of the delta_ema_200_saas trading-bot core

Shallow embedding of the indicator / signal / execution pipeline of the two
bot variants (`src/app/bot/rsi_sma_bot.py`, `src/bot/tradeexecute.py`) over
exact rational arithmetic, together with theorems settling the frozen claims
about candle-boundary computation, Wilder RSI, EMA recurrences, crossover
detection and the close-then-open execution sequences.

Network calls (candle fetch, position fetch, orderbook fetch, order
placement) are modelled by passing their outcome explicitly: `Option`-valued
fetch results and `Bool`-valued order acceptance, matching the python code's
"response parsed successfully" / `{'success': ...}` distinctions.  Mutable
object attributes become explicit state records threaded through the calls.
-/

set_option autoImplicit false

namespace DeltaBot

/-! ## Candle boundary (`AccurateRSISMABot._get_last_completed_candle_time`)

The python code takes `now = datetime.now(utc)`, floors the minute-of-hour
field to a multiple of `timeframe_minutes`, zeroes seconds/microseconds and
subtracts one timeframe.  `now` is modelled as nonnegative epoch seconds. -/

/-- Embedding of `_get_last_completed_candle_time` (rsi_sma_bot.py 258-264):
`minutes = (now.minute // tf) * tf`, `boundary = now.replace(minute=minutes,
second=0, microsecond=0)`, result `= boundary - tf minutes`, as epoch secs. -/
def lastCompletedCandleTime (now tf : ℕ) : ℤ :=
  let s := now % 60
  let m := (now / 60) % 60
  let boundary := now - s - (m % tf) * 60
  (boundary : ℤ) - (tf : ℤ) * 60

/-- The contract stated by the spec: `floor(now, timeframe_minutes) −
timeframe_minutes` in epoch seconds aligned to the timeframe. -/
def lastCompletedBoundarySpec (now tf : ℕ) : ℤ :=
  ((now / (tf * 60)) * (tf * 60) : ℕ) - (tf : ℤ) * 60

/-- Epoch-floor also used by the EMA bot (`EMAStrategyBot.get_latest_candle`):
`current_candle_start = (ts // (tf*60)) * (tf*60)`; the candle it selects is
the last one starting strictly before this boundary. -/
def currentCandleStart (now tf : ℕ) : ℕ :=
  (now / (tf * 60)) * (tf * 60)

/-! ## Shared market-side data model -/

/-- Venue position side, the string `'LONG' | 'SHORT' | 'FLAT'`. -/
inductive Pos
  | LONG
  | SHORT
  | FLAT
  deriving Repr, DecidableEq

/-- Signal direction, the string `'LONG' | 'SHORT'` of a pending signal. -/
inductive Dir
  | LONG
  | SHORT
  deriving Repr, DecidableEq

/-- String comparison of a signal against a position side. -/
def Dir.toPos : Dir → Pos
  | .LONG => Pos.LONG
  | .SHORT => Pos.SHORT

/-- Order side, the string `'buy' | 'sell'`. -/
inductive Side
  | buy
  | sell
  deriving Repr, DecidableEq

/-- Top-of-book snapshot as produced by `get_orderbook` in both bots. -/
structure Book where
  best_bid : ℚ
  best_ask : ℚ
  deriving Repr, DecidableEq

/-- The arguments of a `place_limit_order` call. -/
structure OrderReq where
  side : Side
  size : ℚ
  limit_price : ℚ
  deriving Repr, DecidableEq

/-- The dict returned by `get_current_position` in both bots. -/
structure PosInfo where
  position : Pos
  size : ℚ
  entry_price : ℚ
  unrealized_pnl : ℚ
  deriving Repr, DecidableEq

/-- `{'position': 'FLAT', 'size': 0}` (entry price / pnl absent, read as 0). -/
def flatPos : PosInfo := ⟨Pos.FLAT, 0, 0, 0⟩

/-- One entry of the venue's `/v2/positions/margined` result. -/
structure RawPos where
  product_id : ℕ
  size : ℚ
  entry_price : ℚ
  unrealized_pnl : ℚ
  deriving Repr, DecidableEq

/-- The loop body of `get_current_position`: first entry matching the
product id with nonzero signed size determines the side; zero-size or
non-matching entries are skipped. -/
def findPosition (pid : ℕ) : List RawPos → PosInfo
  | [] => flatPos
  | p :: rest =>
    if p.product_id = pid then
      if p.size > 0 then ⟨Pos.LONG, p.size, p.entry_price, p.unrealized_pnl⟩
      else if p.size < 0 then ⟨Pos.SHORT, -p.size, p.entry_price, p.unrealized_pnl⟩
      else findPosition pid rest
    else findPosition pid rest

/-- Embedding of `get_current_position` (rsi_sma_bot.py 530-565; the EMA
bot's copy at tradeexecute.py 315-353 is identical in this respect): any
failed or unparseable fetch — network exception, non-200 status,
`success=false` — falls through to `{'position': 'FLAT', 'size': 0}`. -/
def get_current_position (fetch : Option (List RawPos)) (pid : ℕ) : PosInfo :=
  match fetch with
  | none => flatPos
  | some positions => findPosition pid positions

/-! ## Wilder RSI (`AccurateRSISMABot.calculate_rsi_wilder`)

Prices and indicator values are modelled as exact rationals.  The mutable
fields `avg_gain`, `avg_loss`, `rsi_initialized` of the bot object become an
explicit `RSIState` threaded through the call. -/

namespace RSISMA

/-- Per-step gains, exactly as the loop in `calculate_rsi_wilder` builds
them: `change = closes[i] - closes[i-1]`; positive change is appended to
`gains`, everything else contributes `0`. -/
def gainsOf : List ℚ → List ℚ
  | prev :: cur :: rest =>
      (if cur - prev > 0 then cur - prev else 0) :: gainsOf (cur :: rest)
  | _ => []

/-- Per-step losses: a negative change contributes `abs(change)`, a positive
or zero change contributes `0`. -/
def lossesOf : List ℚ → List ℚ
  | prev :: cur :: rest =>
      (if cur - prev > 0 then 0
       else if cur - prev < 0 then |cur - prev| else 0) :: lossesOf (cur :: rest)
  | _ => []

/-- The mutable RSI fields of `AccurateRSISMABot`: `avg_gain`/`avg_loss`
start as python `None`, `rsi_initialized` as `False`. -/
structure RSIState where
  avg_gain : Option ℚ
  avg_loss : Option ℚ
  rsi_initialized : Bool
  deriving Repr, DecidableEq

/-- Fresh state as set in `__init__`. -/
def initState : RSIState := ⟨none, none, false⟩

/-- One Wilder smoothing step:
`avg = (avg * (period - 1) + x) / period`. -/
def wilderStep (period : ℕ) (avg x : ℚ) : ℚ :=
  (avg * ((period : ℚ) - 1) + x) / (period : ℚ)

/-- Round-half-to-even on rationals, the convention of python's `round`. -/
def roundHalfEven (q : ℚ) : ℤ :=
  let f := ⌊q⌋
  if q - f < 1 / 2 then f
  else if q - f > 1 / 2 then f + 1
  else if f % 2 = 0 then f else f + 1

/-- `round(x, 2)`: round to two decimal places. -/
def round2 (q : ℚ) : ℚ := (roundHalfEven (q * 100) : ℚ) / 100

/-- Embedding of `calculate_rsi_wilder` (rsi_sma_bot.py 372-415).  Returns
the produced RSI (python `None` becomes `Option.none`) together with the
updated mutable state. -/
def calculate_rsi_wilder (period : ℕ) (s : RSIState) (closes : List ℚ) :
    Option ℚ × RSIState :=
  if closes.length < period + 1 then (none, s)
  else
    let gains := gainsOf closes
    let losses := lossesOf closes
    if gains.length < period then (none, s)
    else
      let s' :=
        if s.rsi_initialized = false then
          let ag0 := (gains.take period).sum / (period : ℚ)
          let al0 := (losses.take period).sum / (period : ℚ)
          let ag := (gains.drop period).foldl (wilderStep period) ag0
          let al := (losses.drop period).foldl (wilderStep period) al0
          RSIState.mk (some ag) (some al) true
        else
          let ag := wilderStep period (s.avg_gain.getD 0) (gains.getLastD 0)
          let al := wilderStep period (s.avg_loss.getD 0) (losses.getLastD 0)
          RSIState.mk (some ag) (some al) true
      let ag := s'.avg_gain.getD 0
      let al := s'.avg_loss.getD 0
      let rsi : ℚ := if al = 0 then 100 else 100 - 100 / (1 + ag / al)
      (some (round2 rsi), s')

/-- Both smoothed averages, when present, are nonnegative. -/
def nonnegAvgs (s : RSIState) : Prop :=
  (∀ g, s.avg_gain = some g → 0 ≤ g) ∧ (∀ l, s.avg_loss = some l → 0 ≤ l)

/-- The spec's per-step gain: "positive delta → gain, rest zero". -/
def specGain (prev cur : ℚ) : ℚ := if prev < cur then cur - prev else 0

/-- The spec's per-step loss: "negative → loss magnitude, rest zero". -/
def specLoss (prev cur : ℚ) : ℚ := if cur < prev then prev - cur else 0

/-- Embedding of `detect_crossover` (rsi_sma_bot.py 475-512), reduced to the
signal it emits: `none` when nothing is emitted (guard hit, no edge, or the
held position already matches the edge's direction), otherwise the direction
written into `pending_signal`. -/
def detect_crossover (prev_rsi prev_sma cur_rsi cur_sma : ℚ) (pos : Pos) :
    Option Dir :=
  if prev_rsi = 0 ∨ prev_sma = 0 then none
  else if prev_rsi ≤ prev_sma ∧ cur_rsi > cur_sma then
    if pos = Pos.LONG then none else some Dir.LONG
  else if prev_rsi ≥ prev_sma ∧ cur_rsi < cur_sma then
    if pos = Pos.SHORT then none else some Dir.SHORT
  else none

/-- The trade calls observable from one `execute_trade` run: the closing
`place_limit_order` request if one was made, the opening request if that
call was reached, and the `pending_signal` left behind. -/
structure ExecTrace where
  closeOrder : Option OrderReq
  openOrder : Option OrderReq
  pendingAfter : Option Dir
  deriving Repr, DecidableEq

/-- Embedding of `execute_trade` (rsi_sma_bot.py 619-668).  `pending` is
`self.pending_signal` on entry; `pos` the value `get_current_position`
returned; `book` the orderbook fetch outcome; `closeSuccess` whether the
closing `place_limit_order` reported `success`. -/
def execute_trade (pending : Option Dir) (pos : PosInfo) (book : Option Book)
    (lot : ℚ) (closeSuccess : Bool) : ExecTrace :=
  match pending with
  | none => ⟨none, none, none⟩
  | some signal =>
    match book with
    | none => ⟨none, none, none⟩
    | some b =>
      let entry_side := if signal = Dir.LONG then Side.buy else Side.sell
      let entry_price := if signal = Dir.LONG then b.best_ask else b.best_bid
      let openOrd : OrderReq := ⟨entry_side, lot, entry_price⟩
      if pos.position ≠ Pos.FLAT then
        let close_side := if pos.position = Pos.LONG then Side.sell else Side.buy
        let close_price := if pos.position = Pos.LONG then b.best_bid else b.best_ask
        let closeOrd : OrderReq := ⟨close_side, pos.size, close_price⟩
        if closeSuccess then ⟨some closeOrd, some openOrd, none⟩
        else ⟨some closeOrd, none, none⟩
      else ⟨none, some openOrd, none⟩

end RSISMA

/-! ## EMA-200 bot (`EMAStrategyBot`, tradeexecute.py) -/

namespace EMA200

/-- The mutable fields of `EMAStrategyBot` touched by the EMA pipeline and
the live display: bounded price/EMA histories, the trading EMA, and the
display-only live price fields. -/
structure EMABotState where
  price_history : List ℚ
  ema_values : List ℚ
  current_ema : ℚ
  current_price : ℚ
  last_price_update : Option ℕ
  ema_period : ℕ
  deriving Repr, DecidableEq

/-- `self.ema_multiplier = 2.0 / (self.ema_period + 1)`. -/
def ema_multiplier (s : EMABotState) : ℚ := 2 / ((s.ema_period : ℚ) + 1)

/-- Embedding of `_calculate_ema` (tradeexecute.py 157-177): seed with the
arithmetic mean of the first `period` closes, then fold the standard EMA
update over the remaining prices; with fewer than `period` prices return
python `None`. -/
def calculate_ema (prices : List ℚ) (period : ℕ) : Option ℚ :=
  if prices.length < period then none
  else
    let sma := (prices.take period).sum / (period : ℚ)
    let multiplier : ℚ := 2 / ((period : ℚ) + 1)
    some ((prices.drop period).foldl
      (fun ema price => (price - ema) * multiplier + ema) sma)

/-- `deque(maxlen=n).append`: drops from the front once full. -/
def dequeAppend (maxlen : ℕ) (xs : List ℚ) (x : ℚ) : List ℚ :=
  let ys := xs ++ [x]
  ys.drop (ys.length - maxlen)

/-- Embedding of `update_ema_with_new_candle` (tradeexecute.py 275-290):
the official per-completed-candle EMA update, one application of
`ema = (close - ema) * multiplier + ema`; guard `current_ema > 0` means
"seeded" and a failed guard mutates nothing and returns python `None`. -/
def update_ema_with_new_candle (s : EMABotState) (close_price : ℚ) :
    Option ℚ × EMABotState :=
  if s.current_ema > 0 then
    let new_ema := (close_price - s.current_ema) * ema_multiplier s + s.current_ema
    (some new_ema,
      { s with
        price_history := dequeAppend (s.ema_period + 100) s.price_history close_price
        current_ema := new_ema
        ema_values := dequeAppend 500 s.ema_values new_ema })
  else (none, s)

/-- Embedding of `update_live_ema` (tradeexecute.py 264-273): the
forming-candle projection for display.  The python method only reads
`self`; the returned state component records the (absence of) mutation. -/
def update_live_ema (s : EMABotState) (current_price : ℚ) : ℚ × EMABotState :=
  if s.current_ema > 0 ∧ current_price > 0 then
    ((current_price - s.current_ema) * ema_multiplier s + s.current_ema, s)
  else (s.current_ema, s)

/-- Embedding of `get_live_price` (tradeexecute.py 245-262): a successful
ticker fetch with positive mark price stores `current_price` and
`last_price_update`; anything else returns python `None` unchanged. -/
def get_live_price (s : EMABotState) (fetched : Option ℚ) (now : ℕ) :
    Option ℚ × EMABotState :=
  match fetched with
  | none => (none, s)
  | some mark_price =>
    if mark_price > 0 then
      (some mark_price,
        { s with current_price := mark_price, last_price_update := some now })
    else (none, s)

/-- Embedding of `display_live_status` (tradeexecute.py 548-589) restricted
to its state effect: fetch the live price, derive the live EMA estimate via
`update_live_ema`, print.  Returns the displayed estimate and the state. -/
def display_live_status (s : EMABotState) (fetched : Option ℚ) (now : ℕ) :
    ℚ × EMABotState :=
  let res := get_live_price s fetched now
  let s1 := res.2
  let live_ema_estimate :=
    match res.1 with
    | some p => (update_live_ema s1 p).1
    | none => s1.current_ema
  (live_ema_estimate, s1)

/-- Result of `close_position` / `open_position`: the limit-order request
that was placed (if the orderbook was available) and the boolean the python
method returns. -/
structure OrderAttempt where
  order : Option OrderReq
  success : Bool
  deriving Repr, DecidableEq

/-- Embedding of `close_position` (tradeexecute.py 487-518): FLAT returns
`True` with no order; a missing orderbook returns `False` with no order;
otherwise a closing limit order at the touch is placed, and the method
returns whether the venue accepted it. -/
def close_position (pos : PosInfo) (book : Option Book)
    (orderAccepted : Bool) : OrderAttempt :=
  if pos.position = Pos.FLAT then ⟨none, true⟩
  else
    match book with
    | none => ⟨none, false⟩
    | some b =>
      let side := if pos.position = Pos.LONG then Side.sell else Side.buy
      let price := if pos.position = Pos.LONG then b.best_bid else b.best_ask
      ⟨some ⟨side, pos.size, price⟩, orderAccepted⟩

/-- Embedding of `open_position` (tradeexecute.py 520-546). -/
def open_position (direction : Dir) (book : Option Book)
    (orderAccepted : Bool) (lot : ℚ) : OrderAttempt :=
  match book with
  | none => ⟨none, false⟩
  | some b =>
    let side := if direction = Dir.LONG then Side.buy else Side.sell
    let price := if direction = Dir.LONG then b.best_ask else b.best_bid
    ⟨some ⟨side, lot, price⟩, orderAccepted⟩

/-- Observable calls of one `execute_signal` run. -/
structure SignalTrace where
  closeOrder : Option OrderReq
  closeSucceeded : Bool
  openAttempted : Bool
  openOrder : Option OrderReq
  deriving Repr, DecidableEq

/-- Embedding of `execute_signal` (tradeexecute.py 614-635).  When the
signal differs from the held position it closes any non-FLAT position and
then calls `open_position` unconditionally — also on the `else` path that
logs "Failed to close position, proceeding anyway". -/
def execute_signal (signal : Dir) (pos : PosInfo) (bookClose bookOpen : Option Book)
    (closeAccepted openAccepted : Bool) (lot : ℚ) : SignalTrace :=
  if signal.toPos ≠ pos.position then
    let closeRes :=
      if pos.position ≠ Pos.FLAT then close_position pos bookClose closeAccepted
      else ⟨none, true⟩
    let openRes := open_position signal bookOpen openAccepted lot
    ⟨closeRes.order, closeRes.success, true, openRes.order⟩
  else ⟨none, true, false, none⟩

end EMA200

/-! ## Helper lemmas -/

theorem decompose_mod_3600 (now : ℕ) :
    now % 3600 = now % 60 + 60 * (now / 60 % 60) := by
  have h : (3600 : ℕ) = 60 * 60 := by norm_num
  rw [h, Nat.mod_mul]

theorem mod_tf60_eq (now tf : ℕ) (htf : tf ∣ 60) :
    now % (tf * 60) = now % 60 + (now / 60 % 60 % tf) * 60 := by
  have hdvd : tf * 60 ∣ 3600 := by
    have h := mul_dvd_mul htf (dvd_refl 60)
    norm_num at h
    exact h
  have h1 : now % (tf * 60) = now % 3600 % (tf * 60) :=
    (Nat.mod_mod_of_dvd now hdvd).symm
  rw [h1, decompose_mod_3600]
  set s := now % 60 with hs
  set m := now / 60 % 60 with hm
  have hslt : s < 60 := Nat.mod_lt _ (by norm_num)
  have hcomm : tf * 60 = 60 * tf := Nat.mul_comm _ _
  rw [hcomm, Nat.mod_mul]
  have h2 : (s + 60 * m) % 60 = s := by
    rw [Nat.add_mul_mod_self_left s 60 m, Nat.mod_eq_of_lt hslt]
  have h3 : (s + 60 * m) / 60 = m := by
    rw [Nat.add_mul_div_left s m (by norm_num : (0:ℕ) < 60),
      Nat.div_eq_of_lt hslt, Nat.zero_add]
  rw [h2, h3, Nat.mul_comm]

theorem boundary_sub_le (now : ℕ) (tf : ℕ) :
    now % 60 + (now / 60 % 60 % tf) * 60 ≤ now := by
  have h1 : now / 60 % 60 % tf ≤ now / 60 % 60 := Nat.mod_le _ _
  have h2 : now % 60 + (now / 60 % 60) * 60 ≤ now := by
    have h3 : now % 3600 ≤ now := Nat.mod_le _ _
    have h4 := decompose_mod_3600 now
    omega
  omega

theorem floor_mul_eq_sub_mod (n k : ℕ) : n / k * k = n - n % k := by
  have h := Nat.div_add_mod n k
  rw [Nat.mul_comm]
  generalize k * (n / k) = P at h ⊢
  omega

namespace RSISMA

theorem gainsOf_length : ∀ l : List ℚ, (gainsOf l).length = l.length - 1
  | [] => rfl
  | [_] => rfl
  | _ :: b :: r => by
    have ih := gainsOf_length (b :: r)
    simp only [gainsOf, List.length_cons] at ih ⊢
    omega

theorem lossesOf_length : ∀ l : List ℚ, (lossesOf l).length = l.length - 1
  | [] => rfl
  | [_] => rfl
  | _ :: b :: r => by
    have ih := lossesOf_length (b :: r)
    simp only [lossesOf, List.length_cons] at ih ⊢
    omega

theorem gainsOf_concat : ∀ (pre : List ℚ) (a b : ℚ),
    gainsOf (pre ++ [a, b]) =
      gainsOf (pre ++ [a]) ++ [if b - a > 0 then b - a else 0]
  | [], _, _ => rfl
  | [_], _, _ => rfl
  | x :: y :: pre, a, b => by
    have ih := gainsOf_concat (y :: pre) a b
    have h1 : (x :: y :: pre) ++ [a, b] = x :: y :: (pre ++ [a, b]) := rfl
    have h2 : (x :: y :: pre) ++ [a] = x :: y :: (pre ++ [a]) := rfl
    have h3 : (y :: pre) ++ [a, b] = y :: (pre ++ [a, b]) := rfl
    have h4 : (y :: pre) ++ [a] = y :: (pre ++ [a]) := rfl
    rw [h3, h4] at ih
    rw [h1, h2]
    simp only [gainsOf]
    rw [ih]
    simp [List.cons_append]

theorem lossesOf_concat : ∀ (pre : List ℚ) (a b : ℚ),
    lossesOf (pre ++ [a, b]) =
      lossesOf (pre ++ [a]) ++
        [if b - a > 0 then 0 else if b - a < 0 then |b - a| else 0]
  | [], _, _ => rfl
  | [_], _, _ => rfl
  | x :: y :: pre, a, b => by
    have ih := lossesOf_concat (y :: pre) a b
    have h1 : (x :: y :: pre) ++ [a, b] = x :: y :: (pre ++ [a, b]) := rfl
    have h2 : (x :: y :: pre) ++ [a] = x :: y :: (pre ++ [a]) := rfl
    have h3 : (y :: pre) ++ [a, b] = y :: (pre ++ [a, b]) := rfl
    have h4 : (y :: pre) ++ [a] = y :: (pre ++ [a]) := rfl
    rw [h3, h4] at ih
    rw [h1, h2]
    simp only [lossesOf]
    rw [ih]
    simp [List.cons_append]

theorem stepGain_eq_specGain (a b : ℚ) :
    (if b - a > 0 then b - a else 0) = specGain a b := by
  simp only [specGain]
  split_ifs with h1 h2 h2 <;> first | rfl | linarith

theorem stepLoss_eq_specLoss (a b : ℚ) :
    (if b - a > 0 then 0 else if b - a < 0 then |b - a| else 0) =
      specLoss a b := by
  simp only [specLoss]
  rcases lt_trichotomy a b with h | h | h
  · rw [if_pos (show b - a > 0 by linarith), if_neg (show ¬ b < a by linarith)]
  · subst h
    norm_num
  · rw [if_neg (show ¬ b - a > 0 by linarith),
      if_pos (show b - a < 0 by linarith), if_pos h,
      abs_of_neg (show b - a < 0 by linarith)]
    ring

theorem gainsOf_nonneg : ∀ l : List ℚ, ∀ x ∈ gainsOf l, 0 ≤ x
  | [] => by simp [gainsOf]
  | [_] => by simp [gainsOf]
  | a :: b :: r => by
    intro x hx
    simp only [gainsOf, List.mem_cons] at hx
    rcases hx with h | h
    · subst h
      split_ifs with hp
      · linarith
      · norm_num
    · exact gainsOf_nonneg (b :: r) x h

theorem lossesOf_nonneg : ∀ l : List ℚ, ∀ x ∈ lossesOf l, 0 ≤ x
  | [] => by simp [lossesOf]
  | [_] => by simp [lossesOf]
  | a :: b :: r => by
    intro x hx
    simp only [lossesOf, List.mem_cons] at hx
    rcases hx with h | h
    · subst h
      split_ifs <;> positivity
    · exact lossesOf_nonneg (b :: r) x h

theorem wilderStep_nonneg (period : ℕ) (hp : 1 ≤ period) {avg x : ℚ}
    (ha : 0 ≤ avg) (hx : 0 ≤ x) : 0 ≤ wilderStep period avg x := by
  have h1 : (1 : ℚ) ≤ (period : ℚ) := by exact_mod_cast hp
  apply div_nonneg
  · nlinarith
  · linarith

theorem foldl_wilderStep_nonneg (period : ℕ) (hp : 1 ≤ period) :
    ∀ l : List ℚ, (∀ x ∈ l, 0 ≤ x) → ∀ a : ℚ, 0 ≤ a →
      0 ≤ l.foldl (wilderStep period) a
  | [], _, a, ha => by simpa using ha
  | x :: t, h, a, ha => by
    simp only [List.foldl_cons]
    exact foldl_wilderStep_nonneg period hp t
      (fun y hy => h y (List.mem_cons_of_mem _ hy)) _
      (wilderStep_nonneg period hp ha (h x (List.mem_cons_self _ _)))

theorem getLastD_zero_nonneg (l : List ℚ) (h : ∀ x ∈ l, 0 ≤ x) :
    0 ≤ l.getLastD 0 := by
  rcases List.mem_cons.mp (List.getLastD_mem_cons l 0) with h0 | hmem
  · exact le_of_eq h0.symm
  · exact h _ hmem

theorem roundHalfEven_nonneg {q : ℚ} (h : 0 ≤ q) : 0 ≤ roundHalfEven q := by
  simp only [roundHalfEven]
  have hf : (0 : ℤ) ≤ ⌊q⌋ := Int.floor_nonneg.mpr h
  split_ifs <;> omega

theorem roundHalfEven_le {q : ℚ} {n : ℤ} (h : q ≤ n) : roundHalfEven q ≤ n := by
  simp only [roundHalfEven]
  have hf : ⌊q⌋ ≤ n := by
    have := Int.floor_le_floor h
    simpa using this
  split_ifs with h1 h2 h3 <;> try exact hf
  all_goals
    have h5 : (⌊q⌋ : ℚ) < (n : ℚ) := by linarith
  all_goals
    have h6 : ⌊q⌋ < n := by exact_mod_cast h5
  all_goals omega

theorem round2_bounds {q : ℚ} (h0 : 0 ≤ q) (h1 : q ≤ 100) :
    0 ≤ round2 q ∧ round2 q ≤ 100 := by
  unfold round2
  constructor
  · apply div_nonneg _ (by norm_num)
    exact_mod_cast roundHalfEven_nonneg (by positivity)
  · rw [div_le_iff₀ (by norm_num : (0:ℚ) < 100)]
    have h2 : roundHalfEven (q * 100) ≤ (10000 : ℤ) :=
      roundHalfEven_le (by push_cast; linarith)
    have h3 : ((roundHalfEven (q * 100) : ℤ) : ℚ) ≤ 10000 := by
      exact_mod_cast h2
    linarith

theorem calc_rsi_short {period : ℕ} (s : RSIState) {closes : List ℚ}
    (h : closes.length < period + 1) :
    calculate_rsi_wilder period s closes = (none, s) := by
  unfold calculate_rsi_wilder
  rw [if_pos h]

theorem optionGetD_nonneg (o : Option ℚ) (h : ∀ g, o = some g → 0 ≤ g) :
    0 ≤ o.getD 0 := by
  cases o with
  | none => norm_num
  | some v => simpa using h v rfl

/-- Characterization of `calculate_rsi_wilder` on an unseeded state with
enough closes: RSI value and new state, written out. -/
theorem calc_rsi_unseeded {period : ℕ} (s : RSIState) {closes : List ℚ}
    (h1 : ¬ closes.length < period + 1)
    (h2 : ¬ (gainsOf closes).length < period)
    (hinit : s.rsi_initialized = false) :
    calculate_rsi_wilder period s closes =
      (some (round2 (if ((lossesOf closes).drop period).foldl (wilderStep period)
            (((lossesOf closes).take period).sum / (period : ℚ)) = 0 then 100
        else 100 - 100 / (1 +
          ((gainsOf closes).drop period).foldl (wilderStep period)
            (((gainsOf closes).take period).sum / (period : ℚ)) /
          ((lossesOf closes).drop period).foldl (wilderStep period)
            (((lossesOf closes).take period).sum / (period : ℚ))))),
       ⟨some (((gainsOf closes).drop period).foldl (wilderStep period)
          (((gainsOf closes).take period).sum / (period : ℚ))),
        some (((lossesOf closes).drop period).foldl (wilderStep period)
          (((lossesOf closes).take period).sum / (period : ℚ))),
        true⟩) := by
  simp only [calculate_rsi_wilder]
  rw [if_neg h1, if_neg h2, hinit]
  simp

/-- Characterization of `calculate_rsi_wilder` on a seeded state with
enough closes. -/
theorem calc_rsi_seeded {period : ℕ} (s : RSIState) {closes : List ℚ}
    (h1 : ¬ closes.length < period + 1)
    (h2 : ¬ (gainsOf closes).length < period)
    (hinit : s.rsi_initialized = true) :
    calculate_rsi_wilder period s closes =
      (some (round2 (if wilderStep period (s.avg_loss.getD 0)
            ((lossesOf closes).getLastD 0) = 0 then 100
        else 100 - 100 / (1 +
          wilderStep period (s.avg_gain.getD 0) ((gainsOf closes).getLastD 0) /
          wilderStep period (s.avg_loss.getD 0) ((lossesOf closes).getLastD 0)))),
       ⟨some (wilderStep period (s.avg_gain.getD 0) ((gainsOf closes).getLastD 0)),
        some (wilderStep period (s.avg_loss.getD 0) ((lossesOf closes).getLastD 0)),
        true⟩) := by
  simp only [calculate_rsi_wilder]
  rw [if_neg h1, if_neg h2, hinit]
  simp

theorem rsiVal_bounds (ag al : ℚ) (hg : 0 ≤ ag) (hl : 0 ≤ al) :
    0 ≤ (if al = 0 then (100:ℚ) else 100 - 100 / (1 + ag / al)) ∧
      (if al = 0 then (100:ℚ) else 100 - 100 / (1 + ag / al)) ≤ 100 := by
  split_ifs with h
  · norm_num
  · have hal : 0 < al := lt_of_le_of_ne hl (Ne.symm h)
    have hrs : 0 ≤ ag / al := div_nonneg hg hl
    have hden : (0:ℚ) < 1 + ag / al := by linarith
    constructor
    · have hb : 100 / (1 + ag / al) ≤ 100 := by
        rw [div_le_iff₀ hden]
        nlinarith
      linarith
    · have hb : 0 < 100 / (1 + ag / al) := by positivity
      linarith

end RSISMA

end DeltaBot

/-! ## Claim theorems -/

/-- C5 (amended): whenever `timeframe_minutes` divides 60 (as it does for
every sub-hour timeframe the bot is configured with), the minute-of-hour
flooring in `_get_last_completed_candle_time` computes exactly the
spec contract `floor(now, timeframe_minutes) − timeframe_minutes` in
epoch seconds.  For timeframes not dividing an hour the two disagree
(see the counterexample). -/
theorem lastCompletedCandleTime_eq_spec (now tf : ℕ) (htf : tf ∣ 60) :
    DeltaBot.lastCompletedCandleTime now tf =
      DeltaBot.lastCompletedBoundarySpec now tf := by
  simp only [DeltaBot.lastCompletedCandleTime, DeltaBot.lastCompletedBoundarySpec]
  have hm := DeltaBot.mod_tf60_eq now tf htf
  have hle := DeltaBot.boundary_sub_le now tf
  have hfloor := DeltaBot.floor_mul_eq_sub_mod now (tf * 60)
  have key : now - now % 60 - now / 60 % 60 % tf * 60 =
      now / (tf * 60) * (tf * 60) := by
    rw [hfloor, hm]
    omega
  rw [key]

/-- C5 counterexample: for `timeframe_minutes = 45` (which does not divide
60) and `now = 37320` (10:22:00 on the epoch day), the code's minute-of-hour
computation yields 09:15:00 (33300) while the spec contract
`floor(now, 45 min) − 45 min` yields 09:00:00 (32400). -/
theorem lastCompletedCandleTime_counterexample :
    DeltaBot.lastCompletedCandleTime 37320 45 = 33300 ∧
      DeltaBot.lastCompletedBoundarySpec 37320 45 = 32400 ∧
      DeltaBot.lastCompletedCandleTime 37320 45 ≠
        DeltaBot.lastCompletedBoundarySpec 37320 45 := by
  refine ⟨by decide, by decide, ?_⟩
  decide

/-- C5 witness: the amended theorem applied at the spec's own example,
`timeframe_minutes = 15`, `now = 10:22:00` (37320): the result is
10:00:00 (36000). -/
theorem lastCompletedCandleTime_witness :
    (15 : ℕ) ∣ 60 ∧
      DeltaBot.lastCompletedCandleTime 37320 15 =
        DeltaBot.lastCompletedBoundarySpec 37320 15 ∧
      DeltaBot.lastCompletedCandleTime 37320 15 = 36000 :=
  ⟨by decide, lastCompletedCandleTime_eq_spec 37320 15 (by decide), by decide⟩

/-- C10: with fewer than `rsi_period + 1` closes, `calculate_rsi_wilder`
returns python `None` and leaves `avg_gain`, `avg_loss` and
`rsi_initialized` untouched — insufficient input never mutates the RSI
state. -/
theorem calculate_rsi_wilder_insufficient (period : ℕ)
    (s : DeltaBot.RSISMA.RSIState) (closes : List ℚ)
    (h : closes.length < period + 1) :
    DeltaBot.RSISMA.calculate_rsi_wilder period s closes = (none, s) :=
  DeltaBot.RSISMA.calc_rsi_short s h

/-- C10 witness: 14 closes with `rsi_period = 14` produce no RSI and leave
an already-seeded state exactly as it was. -/
theorem calculate_rsi_wilder_insufficient_witness :
    DeltaBot.RSISMA.calculate_rsi_wilder 14
        ⟨some 5, some 3, true⟩
        [1, 2, 3, 4, 5, 6, 7, 8, 9, 10, 11, 12, 13, 14] =
      (none, ⟨some 5, some 3, true⟩) :=
  calculate_rsi_wilder_insufficient 14 ⟨some 5, some 3, true⟩
    [1, 2, 3, 4, 5, 6, 7, 8, 9, 10, 11, 12, 13, 14] (by decide)

/-- C3: the Wilder RSI engine.  (i) On an uninitialized state with at least
`rsi_period + 1` closes it seeds `avg_gain`/`avg_loss` as the arithmetic
mean of the first `rsi_period` per-step gains/losses and then
Wilder-advances through every remaining historical step.  (ii) On a seeded
state it applies exactly one update `avg = (avg*(period−1)+x)/period`, with
`x` the gain/loss of the final close against its predecessor.  (iii) The
returned RSI is 100 when the resulting `avg_loss` is 0 and otherwise
`100 − 100/(1 + avg_gain/avg_loss)`, rounded to 2 decimal places. -/
theorem calculate_rsi_wilder_spec (period : ℕ) (hp : 1 ≤ period) :
    (∀ (s : DeltaBot.RSISMA.RSIState) (closes : List ℚ),
      period + 1 ≤ closes.length → s.rsi_initialized = false →
      (DeltaBot.RSISMA.calculate_rsi_wilder period s closes).2 =
        ⟨some (((DeltaBot.RSISMA.gainsOf closes).drop period).foldl
            (DeltaBot.RSISMA.wilderStep period)
            (((DeltaBot.RSISMA.gainsOf closes).take period).sum / (period : ℚ))),
         some (((DeltaBot.RSISMA.lossesOf closes).drop period).foldl
            (DeltaBot.RSISMA.wilderStep period)
            (((DeltaBot.RSISMA.lossesOf closes).take period).sum / (period : ℚ))),
         true⟩) ∧
    (∀ (g0 l0 : ℚ) (pre : List ℚ) (a b : ℚ), period ≤ pre.length + 1 →
      (DeltaBot.RSISMA.calculate_rsi_wilder period ⟨some g0, some l0, true⟩
          (pre ++ [a, b])).2 =
        ⟨some (DeltaBot.RSISMA.wilderStep period g0 (DeltaBot.RSISMA.specGain a b)),
         some (DeltaBot.RSISMA.wilderStep period l0 (DeltaBot.RSISMA.specLoss a b)),
         true⟩) ∧
    (∀ (s : DeltaBot.RSISMA.RSIState) (closes : List ℚ) (r : ℚ)
        (s' : DeltaBot.RSISMA.RSIState),
      DeltaBot.RSISMA.calculate_rsi_wilder period s closes = (some r, s') →
      r = DeltaBot.RSISMA.round2 (if s'.avg_loss.getD 0 = 0 then 100
        else 100 - 100 / (1 + s'.avg_gain.getD 0 / s'.avg_loss.getD 0))) := by
  refine ⟨?_, ?_, ?_⟩
  · intro s closes hlen hinit
    have hg : ¬ (closes.length < period + 1) := by omega
    have hglen : ¬ ((DeltaBot.RSISMA.gainsOf closes).length < period) := by
      rw [DeltaBot.RSISMA.gainsOf_length]
      omega
    simp only [DeltaBot.RSISMA.calculate_rsi_wilder]
    rw [if_neg hg, if_neg hglen, hinit]
    simp
  · intro g0 l0 pre a b hlen
    have hlen2 : (pre ++ [a, b]).length = pre.length + 2 := by simp
    have hg : ¬ ((pre ++ [a, b]).length < period + 1) := by
      rw [hlen2]
      omega
    have hglen : ¬ ((DeltaBot.RSISMA.gainsOf (pre ++ [a, b])).length < period) := by
      rw [DeltaBot.RSISMA.gainsOf_length, hlen2]
      omega
    have hgl : (DeltaBot.RSISMA.gainsOf (pre ++ [a, b])).getLastD 0 =
        DeltaBot.RSISMA.specGain a b := by
      rw [DeltaBot.RSISMA.gainsOf_concat, List.getLastD_concat,
        DeltaBot.RSISMA.stepGain_eq_specGain]
    have hll : (DeltaBot.RSISMA.lossesOf (pre ++ [a, b])).getLastD 0 =
        DeltaBot.RSISMA.specLoss a b := by
      rw [DeltaBot.RSISMA.lossesOf_concat, List.getLastD_concat,
        DeltaBot.RSISMA.stepLoss_eq_specLoss]
    simp only [DeltaBot.RSISMA.calculate_rsi_wilder]
    rw [if_neg hg, if_neg hglen, hgl, hll]
    simp
  · intro s closes r s' heq
    by_cases h1 : closes.length < period + 1
    · rw [DeltaBot.RSISMA.calc_rsi_short s h1] at heq
      exact absurd (congrArg Prod.fst heq) (by simp)
    · by_cases h2 : (DeltaBot.RSISMA.gainsOf closes).length < period
      · exfalso
        rw [DeltaBot.RSISMA.gainsOf_length] at h2
        omega
      · simp only [DeltaBot.RSISMA.calculate_rsi_wilder] at heq
        rw [if_neg h1, if_neg h2] at heq
        rw [Prod.mk.injEq] at heq
        obtain ⟨he1, he2⟩ := heq
        rw [Option.some.injEq] at he1
        subst he2
        exact he1.symm

/-- C3 witness: the seeded-update clause applied at `rsi_period = 2` with
history `[1] ++ [2, 4]` and averages `avg_gain = 1`, `avg_loss = 0`. -/
theorem calculate_rsi_wilder_spec_witness :
    (DeltaBot.RSISMA.calculate_rsi_wilder 2 ⟨some 1, some 0, true⟩
        ([1] ++ [2, 4])).2 =
      ⟨some (DeltaBot.RSISMA.wilderStep 2 1 (DeltaBot.RSISMA.specGain 2 4)),
       some (DeltaBot.RSISMA.wilderStep 2 0 (DeltaBot.RSISMA.specLoss 2 4)),
       true⟩ :=
  (calculate_rsi_wilder_spec 2 (by norm_num)).2.1 1 0 [1] 2 4 (by norm_num)

/-- C4: on any state whose stored averages are nonnegative (in particular
the fresh one), `calculate_rsi_wilder` keeps `avg_gain ≥ 0` and
`avg_loss ≥ 0` after every seed and every update, and every RSI value it
returns lies in `[0, 100]`. -/
theorem rsi_bounds_invariant (period : ℕ) (hp : 1 ≤ period)
    (s : DeltaBot.RSISMA.RSIState) (closes : List ℚ)
    (hs : DeltaBot.RSISMA.nonnegAvgs s) :
    DeltaBot.RSISMA.nonnegAvgs
        (DeltaBot.RSISMA.calculate_rsi_wilder period s closes).2 ∧
      ∀ r, (DeltaBot.RSISMA.calculate_rsi_wilder period s closes).1 = some r →
        0 ≤ r ∧ r ≤ 100 := by
  by_cases h1 : closes.length < period + 1
  · rw [DeltaBot.RSISMA.calc_rsi_short s h1]
    exact ⟨hs, fun r hr => absurd hr (by simp)⟩
  · have h2 : ¬ ((DeltaBot.RSISMA.gainsOf closes).length < period) := by
      rw [DeltaBot.RSISMA.gainsOf_length]
      omega
    have hgainsN := DeltaBot.RSISMA.gainsOf_nonneg closes
    have hlossN := DeltaBot.RSISMA.lossesOf_nonneg closes
    cases hinit : s.rsi_initialized with
    | false =>
      rw [DeltaBot.RSISMA.calc_rsi_unseeded s h1 h2 hinit]
      have hag : 0 ≤ ((DeltaBot.RSISMA.gainsOf closes).drop period).foldl
          (DeltaBot.RSISMA.wilderStep period)
          (((DeltaBot.RSISMA.gainsOf closes).take period).sum / (period : ℚ)) :=
        DeltaBot.RSISMA.foldl_wilderStep_nonneg period hp _
          (fun y hy => hgainsN y (List.drop_subset _ _ hy)) _
          (div_nonneg
            (List.sum_nonneg fun y hy => hgainsN y (List.take_subset _ _ hy))
            (by positivity))
      have hal : 0 ≤ ((DeltaBot.RSISMA.lossesOf closes).drop period).foldl
          (DeltaBot.RSISMA.wilderStep period)
          (((DeltaBot.RSISMA.lossesOf closes).take period).sum / (period : ℚ)) :=
        DeltaBot.RSISMA.foldl_wilderStep_nonneg period hp _
          (fun y hy => hlossN y (List.drop_subset _ _ hy)) _
          (div_nonneg
            (List.sum_nonneg fun y hy => hlossN y (List.take_subset _ _ hy))
            (by positivity))
      refine ⟨⟨fun g hg => ?_, fun l hl => ?_⟩, fun r hr => ?_⟩
      · have h' : some (((DeltaBot.RSISMA.gainsOf closes).drop period).foldl
            (DeltaBot.RSISMA.wilderStep period)
            (((DeltaBot.RSISMA.gainsOf closes).take period).sum / (period : ℚ)))
            = some g := hg
        injection h' with h''
        rw [← h'']
        exact hag
      · have h' : some (((DeltaBot.RSISMA.lossesOf closes).drop period).foldl
            (DeltaBot.RSISMA.wilderStep period)
            (((DeltaBot.RSISMA.lossesOf closes).take period).sum / (period : ℚ)))
            = some l := hl
        injection h' with h''
        rw [← h'']
        exact hal
      · have h' := hr
        rw [Option.some.injEq] at h'
        rw [← h']
        exact DeltaBot.RSISMA.round2_bounds
          (DeltaBot.RSISMA.rsiVal_bounds _ _ hag hal).1
          (DeltaBot.RSISMA.rsiVal_bounds _ _ hag hal).2
    | true =>
      rw [DeltaBot.RSISMA.calc_rsi_seeded s h1 h2 hinit]
      have hag : 0 ≤ DeltaBot.RSISMA.wilderStep period (s.avg_gain.getD 0)
          ((DeltaBot.RSISMA.gainsOf closes).getLastD 0) :=
        DeltaBot.RSISMA.wilderStep_nonneg period hp
          (DeltaBot.RSISMA.optionGetD_nonneg _ hs.1)
          (DeltaBot.RSISMA.getLastD_zero_nonneg _ hgainsN)
      have hal : 0 ≤ DeltaBot.RSISMA.wilderStep period (s.avg_loss.getD 0)
          ((DeltaBot.RSISMA.lossesOf closes).getLastD 0) :=
        DeltaBot.RSISMA.wilderStep_nonneg period hp
          (DeltaBot.RSISMA.optionGetD_nonneg _ hs.2)
          (DeltaBot.RSISMA.getLastD_zero_nonneg _ hlossN)
      refine ⟨⟨fun g hg => ?_, fun l hl => ?_⟩, fun r hr => ?_⟩
      · have h' : some (DeltaBot.RSISMA.wilderStep period (s.avg_gain.getD 0)
            ((DeltaBot.RSISMA.gainsOf closes).getLastD 0)) = some g := hg
        injection h' with h''
        rw [← h'']
        exact hag
      · have h' : some (DeltaBot.RSISMA.wilderStep period (s.avg_loss.getD 0)
            ((DeltaBot.RSISMA.lossesOf closes).getLastD 0)) = some l := hl
        injection h' with h''
        rw [← h'']
        exact hal
      · have h' := hr
        rw [Option.some.injEq] at h'
        rw [← h']
        exact DeltaBot.RSISMA.round2_bounds
          (DeltaBot.RSISMA.rsiVal_bounds _ _ hag hal).1
          (DeltaBot.RSISMA.rsiVal_bounds _ _ hag hal).2

/-- C4 witness: seeding from `[1, 2]` with `rsi_period = 1` keeps the
averages nonnegative, and the RSI produced there (100, since the loss
average is 0) is within `[0, 100]`. -/
theorem rsi_bounds_invariant_witness :
    DeltaBot.RSISMA.nonnegAvgs
        (DeltaBot.RSISMA.calculate_rsi_wilder 1
          DeltaBot.RSISMA.initState [1, 2]).2 ∧
      (0 ≤ (100 : ℚ) ∧ (100 : ℚ) ≤ 100) := by
  have h := rsi_bounds_invariant 1 (by norm_num) DeltaBot.RSISMA.initState [1, 2]
    ⟨fun g hg => by simp [DeltaBot.RSISMA.initState] at hg,
     fun l hl => by simp [DeltaBot.RSISMA.initState] at hl⟩
  have hval : (DeltaBot.RSISMA.calculate_rsi_wilder 1
      DeltaBot.RSISMA.initState [1, 2]).1 = some 100 := by
    rw [DeltaBot.RSISMA.calc_rsi_unseeded DeltaBot.RSISMA.initState
      (by decide) (by decide) rfl]
    norm_num [DeltaBot.RSISMA.gainsOf, DeltaBot.RSISMA.lossesOf,
      DeltaBot.RSISMA.round2, DeltaBot.RSISMA.roundHalfEven]
  exact ⟨h.1, h.2 100 hval⟩

/-- C6: once prior values pass the guard, a bullish signal is emitted iff
`prev_rsi ≤ prev_sma` and `cur_rsi > cur_sma` and the held position is not
already LONG, and a bearish signal iff `prev_rsi ≥ prev_sma` and
`cur_rsi < cur_sma` and the held position is not already SHORT — in
particular a recurring bullish edge while LONG emits nothing. -/
theorem detect_crossover_spec (prev_rsi prev_sma cur_rsi cur_sma : ℚ)
    (pos : DeltaBot.Pos) (h1 : prev_rsi ≠ 0) (h2 : prev_sma ≠ 0) :
    (DeltaBot.RSISMA.detect_crossover prev_rsi prev_sma cur_rsi cur_sma pos =
        some DeltaBot.Dir.LONG ↔
      prev_rsi ≤ prev_sma ∧ cur_sma < cur_rsi ∧ pos ≠ DeltaBot.Pos.LONG) ∧
    (DeltaBot.RSISMA.detect_crossover prev_rsi prev_sma cur_rsi cur_sma pos =
        some DeltaBot.Dir.SHORT ↔
      prev_sma ≤ prev_rsi ∧ cur_rsi < cur_sma ∧ pos ≠ DeltaBot.Pos.SHORT) := by
  simp only [DeltaBot.RSISMA.detect_crossover]
  rw [if_neg (show ¬ (prev_rsi = 0 ∨ prev_sma = 0) from by push_neg; exact ⟨h1, h2⟩)]
  constructor
  · by_cases hb : prev_rsi ≤ prev_sma ∧ cur_rsi > cur_sma
    · rw [if_pos hb]
      by_cases hpl : pos = DeltaBot.Pos.LONG
      · rw [if_pos hpl]
        simp [hpl]
      · rw [if_neg hpl]
        simp [hb.1, hb.2, hpl]
    · rw [if_neg hb]
      split_ifs with hs hss
      · constructor
        · intro h
          exact absurd h (by simp)
        · intro h
          exact absurd ⟨h.1, h.2.1⟩ hb
      · constructor
        · intro h
          exact absurd h (by simp)
        · intro h
          exact absurd ⟨h.1, h.2.1⟩ hb
      · constructor
        · intro h
          exact absurd h (by simp)
        · intro h
          exact absurd ⟨h.1, h.2.1⟩ hb
  · by_cases hb : prev_rsi ≤ prev_sma ∧ cur_rsi > cur_sma
    · rw [if_pos hb]
      have hnb : ¬ (prev_sma ≤ prev_rsi ∧ cur_rsi < cur_sma) := by
        rintro ⟨-, hc⟩
        exact absurd hb.2 (by linarith)
      by_cases hpl : pos = DeltaBot.Pos.LONG
      · rw [if_pos hpl]
        constructor
        · intro h
          exact absurd h (by simp)
        · intro h
          exact absurd ⟨h.1, h.2.1⟩ hnb
      · rw [if_neg hpl]
        constructor
        · intro h
          exact absurd h (by simp)
        · intro h
          exact absurd ⟨h.1, h.2.1⟩ hnb
    · rw [if_neg hb]
      by_cases hs : prev_rsi ≥ prev_sma ∧ cur_rsi < cur_sma
      · rw [if_pos hs]
        by_cases hps : pos = DeltaBot.Pos.SHORT
        · rw [if_pos hps]
          simp [hps]
        · rw [if_neg hps]
          simp [hs.1, hs.2, hps]
      · rw [if_neg hs]
        constructor
        · intro h
          exact absurd h (by simp)
        · intro h
          exact absurd ⟨h.1, h.2.1⟩ hs

/-- C6 witness: the spec's own example — RSI moving 29 → 31 against an SMA
pinned at 30 fires a bullish signal when FLAT, and the same edge while
already LONG emits nothing. -/
theorem detect_crossover_spec_witness :
    DeltaBot.RSISMA.detect_crossover 29 30 31 30 DeltaBot.Pos.FLAT =
        some DeltaBot.Dir.LONG ∧
      DeltaBot.RSISMA.detect_crossover 29 30 31 30 DeltaBot.Pos.LONG = none :=
  ⟨((detect_crossover_spec 29 30 31 30 DeltaBot.Pos.FLAT
      (by norm_num) (by norm_num)).1).mpr
        ⟨by norm_num, by norm_num, by decide⟩,
   by decide⟩

/-- C7 (code bug, flagged by the spec itself): the guard in
`detect_crossover` is the zero-sentinel `prev_rsi == 0 or prev_sma == 0`,
not a `Running`-state check, so a legitimate prior RSI reading of exactly 0
suppresses evaluation even though prior values exist: with `prev_rsi = 0`,
`prev_sma = 30`, `cur_rsi = 40`, `cur_sma = 35` a bullish edge
(`prev_rsi ≤ prev_sma` and `cur_rsi > cur_sma`) is present and the position
is FLAT, yet nothing is emitted. -/
theorem detect_crossover_zero_sentinel_bug :
    (0 : ℚ) ≤ 30 ∧ (35 : ℚ) < 40 ∧
      DeltaBot.RSISMA.detect_crossover 0 30 40 35 DeltaBot.Pos.FLAT = none := by
  refine ⟨by norm_num, by norm_num, ?_⟩
  decide

/-- C8: the EMA engine.  (i) With fewer than `period` prices,
`_calculate_ema` produces no value.  (ii) With at least `period` prices the
initial EMA is the arithmetic mean of the first `period` closes and each
remaining close is folded through `ema = (close − ema) * m + ema` with
`m = 2/(period+1)`.  (iii) Each completed-candle close applies exactly one
such update to a seeded state via `update_ema_with_new_candle`. -/
theorem calculate_ema_spec (period : ℕ) (hp : 1 ≤ period) :
    (∀ prices : List ℚ, prices.length < period →
      DeltaBot.EMA200.calculate_ema prices period = none) ∧
    (∀ prices : List ℚ, period ≤ prices.length →
      DeltaBot.EMA200.calculate_ema prices period =
        some ((prices.drop period).foldl
          (fun ema price => (price - ema) * (2 / ((period : ℚ) + 1)) + ema)
          ((prices.take period).sum / (period : ℚ)))) ∧
    (∀ (s : DeltaBot.EMA200.EMABotState) (close_price : ℚ),
      0 < s.current_ema →
      (DeltaBot.EMA200.update_ema_with_new_candle s close_price).1 =
        some ((close_price - s.current_ema) * (2 / ((s.ema_period : ℚ) + 1)) +
          s.current_ema) ∧
      (DeltaBot.EMA200.update_ema_with_new_candle s close_price).2.current_ema =
        (close_price - s.current_ema) * (2 / ((s.ema_period : ℚ) + 1)) +
          s.current_ema) := by
  refine ⟨?_, ?_, ?_⟩
  · intro prices h
    simp only [DeltaBot.EMA200.calculate_ema]
    rw [if_pos h]
  · intro prices h
    simp only [DeltaBot.EMA200.calculate_ema]
    rw [if_neg (not_lt.mpr h)]
  · intro s close_price h
    simp only [DeltaBot.EMA200.update_ema_with_new_candle,
      DeltaBot.EMA200.ema_multiplier]
    rw [if_pos h]
    exact ⟨rfl, rfl⟩

/-- C8 witness: with `period = 2` and prices `[1, 3, 5]` the seed is the
mean 2 of the first two closes and one update with multiplier `2/3` yields
4; a single price yields no value; a seeded state at EMA 2 with period 2
updates to 4 on close 5. -/
theorem calculate_ema_spec_witness :
    DeltaBot.EMA200.calculate_ema [1] 2 = none ∧
    DeltaBot.EMA200.calculate_ema [1, 3, 5] 2 = some 4 ∧
    (DeltaBot.EMA200.update_ema_with_new_candle
        ⟨[1, 3], [2], 2, 0, none, 2⟩ 5).1 = some 4 := by
  have h := calculate_ema_spec 2 (by norm_num)
  refine ⟨h.1 [1] (by norm_num), ?_, ?_⟩
  · rw [h.2.1 [1, 3, 5] (by norm_num)]
    norm_num
  · have h3 := (h.2.2 ⟨[1, 3], [2], 2, 0, none, 2⟩ 5 (by norm_num)).1
    rw [h3]
    norm_num

/-- C9: the forming-candle EMA projection is read-only.  Neither
`update_live_ema` itself nor the `display_live_status` path that invokes it
changes `current_ema`, `ema_values` or `price_history` — the projection
never writes back into trading state. -/
theorem update_live_ema_readonly (s : DeltaBot.EMA200.EMABotState) (p : ℚ)
    (fetched : Option ℚ) (now : ℕ) :
    ((DeltaBot.EMA200.update_live_ema s p).2.current_ema = s.current_ema ∧
      (DeltaBot.EMA200.update_live_ema s p).2.ema_values = s.ema_values ∧
      (DeltaBot.EMA200.update_live_ema s p).2.price_history = s.price_history) ∧
    ((DeltaBot.EMA200.display_live_status s fetched now).2.current_ema =
        s.current_ema ∧
      (DeltaBot.EMA200.display_live_status s fetched now).2.ema_values =
        s.ema_values ∧
      (DeltaBot.EMA200.display_live_status s fetched now).2.price_history =
        s.price_history) := by
  constructor
  · unfold DeltaBot.EMA200.update_live_ema
    split_ifs <;> exact ⟨rfl, rfl, rfl⟩
  · unfold DeltaBot.EMA200.display_live_status DeltaBot.EMA200.get_live_price
    cases fetched with
    | none => exact ⟨rfl, rfl, rfl⟩
    | some mp =>
      by_cases hmp : mp > 0
      · simp only [if_pos hmp]
        refine ⟨?_, ?_, ?_⟩ <;> trivial
      · simp only [if_neg hmp]
        refine ⟨?_, ?_, ?_⟩ <;> trivial

/-- C1 counterexample: in the EMA-200 variant, with a SHORT position held,
a LONG signal, both orderbook fetches succeeding and the closing order
rejected, `execute_signal` still attempts the open: the closing order is
placed and fails, yet `open_position` is invoked and places the opening
order ("Failed to close position, proceeding anyway"). -/
theorem execute_signal_opens_after_failed_close :
    (DeltaBot.EMA200.execute_signal DeltaBot.Dir.LONG
        ⟨DeltaBot.Pos.SHORT, 2, 100, 0⟩ (some ⟨100, 101⟩) (some ⟨100, 101⟩)
        false true 1).closeOrder = some ⟨DeltaBot.Side.buy, 2, 101⟩ ∧
    (DeltaBot.EMA200.execute_signal DeltaBot.Dir.LONG
        ⟨DeltaBot.Pos.SHORT, 2, 100, 0⟩ (some ⟨100, 101⟩) (some ⟨100, 101⟩)
        false true 1).closeSucceeded = false ∧
    (DeltaBot.EMA200.execute_signal DeltaBot.Dir.LONG
        ⟨DeltaBot.Pos.SHORT, 2, 100, 0⟩ (some ⟨100, 101⟩) (some ⟨100, 101⟩)
        false true 1).openAttempted = true ∧
    (DeltaBot.EMA200.execute_signal DeltaBot.Dir.LONG
        ⟨DeltaBot.Pos.SHORT, 2, 100, 0⟩ (some ⟨100, 101⟩) (some ⟨100, 101⟩)
        false true 1).openOrder = some ⟨DeltaBot.Side.buy, 1, 101⟩ := by
  refine ⟨?_, ?_, ?_, ?_⟩ <;> decide

/-- C1 (amended): when the closing order fails, the RSI-SMA variant's
`execute_trade` aborts — the opening order call is never reached — while
the EMA-200 variant's `execute_signal` proceeds to invoke `open_position`
anyway, so the abort-on-failed-close guarantee holds only for the RSI-SMA
variant. -/
theorem close_fail_abort_behavior :
    (∀ (signal : DeltaBot.Dir) (pos : DeltaBot.PosInfo) (b : DeltaBot.Book)
        (lot : ℚ),
      pos.position ≠ DeltaBot.Pos.FLAT →
      (DeltaBot.RSISMA.execute_trade (some signal) pos (some b) lot
          false).openOrder = none ∧
      (DeltaBot.RSISMA.execute_trade (some signal) pos (some b) lot
          false).closeOrder.isSome = true) ∧
    (∀ (signal : DeltaBot.Dir) (pos : DeltaBot.PosInfo) (bc bo : DeltaBot.Book)
        (lot : ℚ),
      pos.position ≠ DeltaBot.Pos.FLAT →
      signal.toPos ≠ pos.position →
      (DeltaBot.EMA200.execute_signal signal pos (some bc) (some bo)
          false true lot).closeSucceeded = false ∧
      (DeltaBot.EMA200.execute_signal signal pos (some bc) (some bo)
          false true lot).openAttempted = true ∧
      (DeltaBot.EMA200.execute_signal signal pos (some bc) (some bo)
          false true lot).openOrder.isSome = true) := by
  constructor
  · intro signal pos b lot hne
    simp only [DeltaBot.RSISMA.execute_trade]
    rw [if_pos hne]
    exact ⟨rfl, rfl⟩
  · intro signal pos bc bo lot hne hdiff
    simp only [DeltaBot.EMA200.execute_signal, DeltaBot.EMA200.close_position,
      DeltaBot.EMA200.open_position]
    rw [if_pos hdiff, if_pos hne, if_neg hne]
    exact ⟨rfl, rfl, rfl⟩

/-- C1 witness: the amended behavior at concrete inputs — the RSI-SMA
variant places no opening order after a failed close of a SHORT position,
the EMA-200 variant attempts the open regardless. -/
theorem close_fail_abort_behavior_witness :
    (DeltaBot.RSISMA.execute_trade (some DeltaBot.Dir.LONG)
        ⟨DeltaBot.Pos.SHORT, 2, 90, 0⟩ (some ⟨100, 101⟩) 1 false).openOrder =
      none ∧
    (DeltaBot.EMA200.execute_signal DeltaBot.Dir.LONG
        ⟨DeltaBot.Pos.SHORT, 2, 90, 0⟩ (some ⟨100, 101⟩) (some ⟨100, 101⟩)
        false true 1).openAttempted = true :=
  ⟨(close_fail_abort_behavior.1 DeltaBot.Dir.LONG ⟨DeltaBot.Pos.SHORT, 2, 90, 0⟩
      ⟨100, 101⟩ 1 (by decide)).1,
   (close_fail_abort_behavior.2 DeltaBot.Dir.LONG ⟨DeltaBot.Pos.SHORT, 2, 90, 0⟩
      ⟨100, 101⟩ ⟨100, 101⟩ 1 (by decide) (by decide)).2.1⟩

/-- C2 counterexample: a failed venue position fetch is returned by
`get_current_position` as a confirmed FLAT position, and `execute_trade`
then places the opening order with no abort and no close — the failed
fetch is treated exactly like a confirmed FLAT state. -/
theorem failed_fetch_treated_as_flat :
    DeltaBot.get_current_position none 7 = DeltaBot.flatPos ∧
    (DeltaBot.RSISMA.execute_trade (some DeltaBot.Dir.LONG)
        (DeltaBot.get_current_position none 7) (some ⟨100, 101⟩) 1
        true).closeOrder = none ∧
    (DeltaBot.RSISMA.execute_trade (some DeltaBot.Dir.LONG)
        (DeltaBot.get_current_position none 7) (some ⟨100, 101⟩) 1
        true).openOrder = some ⟨DeltaBot.Side.buy, 1, 101⟩ := by
  refine ⟨?_, ?_, ?_⟩ <;> decide

/-- C2 (amended): whenever the position fetch fails, `get_current_position`
reports FLAT, and for any available orderbook and pending signal
`execute_trade` proceeds on that assumption: it skips the close branch and
places the opening limit order at the touch — no abort occurs on the
unconfirmed position state. -/
theorem failed_fetch_opens_position (pid : ℕ) (signal : DeltaBot.Dir)
    (b : DeltaBot.Book) (lot : ℚ) (closeSuccess : Bool) :
    DeltaBot.get_current_position none pid = DeltaBot.flatPos ∧
    (DeltaBot.RSISMA.execute_trade (some signal)
        (DeltaBot.get_current_position none pid) (some b) lot
        closeSuccess).closeOrder = none ∧
    (DeltaBot.RSISMA.execute_trade (some signal)
        (DeltaBot.get_current_position none pid) (some b) lot
        closeSuccess).openOrder =
      some ⟨if signal = DeltaBot.Dir.LONG then DeltaBot.Side.buy
              else DeltaBot.Side.sell,
            lot,
            if signal = DeltaBot.Dir.LONG then b.best_ask else b.best_bid⟩ := by
  refine ⟨rfl, ?_, ?_⟩ <;>
  · simp only [DeltaBot.get_current_position, DeltaBot.RSISMA.execute_trade]
    rw [if_neg (show ¬ (DeltaBot.flatPos.position ≠ DeltaBot.Pos.FLAT) from
      by decide)]
